import Mathlib

/-!
Verification of the hand-hygiene dashboard pipeline (`script.js`).

The source is a browser script: `processCSV` parses a CSV text, aggregates
today's statistics, and hands them to rendering helpers.  We embed the pure
core of the script: the string/CSV manipulation, the timestamp parsing
(ECMAScript date-time string format), the aggregation loop, the percentage
computation of `updateDashboardStats`, and the sort of `updateTable`.

JS strings are modelled as Lean `String`s, with the character-level
operations (`split`, `trim`, `toLowerCase`, `includes`, `replace`)
re-implemented over `List Char` mirroring the ECMAScript semantics the
script relies on (ASCII data throughout).  JS numbers are modelled exactly:
integers/epoch milliseconds as `Int`, and the percent computation over an
extended rational type with `NaN`/`Infinity` (the inputs are small integers,
where IEEE double arithmetic is exact for the operations used).
-/

/-- JS whitespace characters relevant to `String.prototype.trim` on the
data this script handles (ASCII whitespace). -/
def isWS (c : Char) : Bool :=
  c = ' ' || c = '\t' || c = '\n' || c = '\r' || c = '\x0b' || c = '\x0c'

/-- Drop leading whitespace. -/
def trimL : List Char → List Char
  | [] => []
  | c :: cs => if isWS c then trimL cs else c :: cs

/-- JS `s.trim()`: drop leading and trailing whitespace. -/
def trimC (l : List Char) : List Char :=
  trimL (trimL l.reverse).reverse

/-- JS `s.split(sep)` for a single-character separator: always returns at
least one (possibly empty) field; `"".split(sep) = [""]`. -/
def splitCh (sep : Char) : List Char → List (List Char)
  | [] => [[]]
  | c :: cs =>
    if c = sep then [] :: splitCh sep cs
    else
      match splitCh sep cs with
      | [] => [[c]]
      | h :: t => (c :: h) :: t

/-- Is `pat` a prefix of `l`? (helper for the substring test). -/
def startsWith : List Char → List Char → Bool
  | [], _ => true
  | _ :: _, [] => false
  | p :: ps, c :: cs => p = c && startsWith ps cs

/-- JS `s.includes(pat)`: does `pat` occur as a contiguous substring of `l`? -/
def hasSub (pat : List Char) : List Char → Bool
  | [] => startsWith pat []
  | c :: cs => startsWith pat (c :: cs) || hasSub pat cs

/-- JS `s.replace(' ', 'T')` with string arguments replaces only the first
occurrence (`script.js` line 103). -/
def replFirstSpace : List Char → List Char
  | [] => []
  | c :: cs => if c = ' ' then 'T' :: cs else c :: replFirstSpace cs

/-- JS `s.split(' ')[0]` (`script.js` lines 118 and 186): the part of the
string before its first space, or the whole string when it has no space. -/
def firstField (l : List Char) : List Char :=
  (splitCh ' ' l).headD l

/-- JS `s.toLowerCase()` on ASCII data. -/
def toLowerC (l : List Char) : List Char := l.map Char.toLower

/-- Parse a fixed-width run of decimal digits (the ECMAScript date-time
string format uses fixed-width numeric fields). -/
def parseDigits (k : Nat) (l : List Char) : Option Nat :=
  if l.length = k && l.all Char.isDigit then
    some (l.foldl (fun a c => 10 * a + (c.toNat - 48)) 0)
  else none

/-- Proleptic-Gregorian leap-year test. -/
def isLeapYear (y : Int) : Bool :=
  (Int.emod y 4 = 0 && ¬ Int.emod y 100 = 0) || Int.emod y 400 = 0

/-- Number of days in month `m` (1..12) of year `y`. -/
def daysInMonth (y : Int) (m : Nat) : Nat :=
  if m = 2 then (if isLeapYear y then 29 else 28)
  else if m = 4 || m = 6 || m = 9 || m = 11 then 30
  else 31

/-- Days from the civil epoch 1970-01-01 to year `y`, month `m`, day `d`
(Howard Hinnant's `days_from_civil` algorithm, as used by every date
library implementing the proleptic Gregorian calendar of `Date`). -/
def daysFromCivil (y : Int) (m d : Nat) : Int :=
  let y' : Int := if m ≤ 2 then y - 1 else y
  let era : Int := Int.fdiv y' 400
  let yoe : Nat := (y' - era * 400).toNat
  let mp : Nat := if 2 < m then m - 3 else m + 9
  let doy : Nat := (153 * mp + 2) / 5 + d - 1
  let doe : Nat := yoe * 365 + yoe / 4 - yoe / 100 + doy
  era * 146097 + (doe : Int) - 719468

/-- Civil date (year, month, day) of the day `z` days after 1970-01-01
(Hinnant's `civil_from_days`). -/
def civilFromDays (z : Int) : Int × Nat × Nat :=
  let zz : Int := z + 719468
  let era : Int := Int.fdiv zz 146097
  let doe : Nat := (zz - era * 146097).toNat
  let yoe : Nat := (doe - doe / 1460 + doe / 36524 - doe / 146096) / 365
  let doy : Nat := doe - (365 * yoe + yoe / 4 - yoe / 100)
  let mp : Nat := (5 * doy + 2) / 153
  let d : Nat := doy - (153 * mp + 2) / 5 + 1
  let m : Nat := if mp < 10 then mp + 3 else mp - 9
  (if m ≤ 2 then era * 400 + yoe + 1 else era * 400 + yoe, m, d)

/-- Zero-padded fixed-width decimal rendering. -/
def padNum (w n : Nat) : List Char :=
  let s := Nat.toDigits 10 n
  List.replicate (w - s.length) '0' ++ s

/-- `new Date(ms).toISOString().slice(0, 10)`: the `YYYY-MM-DD` string of
the UTC calendar date holding instant `ms` (milliseconds since epoch).
`script.js` line 71 computes today's reference string this way. -/
def utcDateString (ms : Int) : String :=
  match civilFromDays (Int.fdiv ms 86400000) with
  | (y, m, d) => ⟨padNum 4 y.toNat ++ '-' :: (padNum 2 m ++ '-' :: padNum 2 d)⟩

/-- `script.js` lines 113-114: the `YYYY-MM-DD` string of the local
calendar date at instant `nowMs` in a zone whose `getTimezoneOffset()` is
`tz` minutes (`new Date(nowMs - tz*60000).toISOString().split('T')[0]`).
The script computes this value but never uses it for the today filter. -/
def localDateString (nowMs tz : Int) : String :=
  utcDateString (nowMs - tz * 60000)

/-- Parse the date component `YYYY-MM-DD` of an ECMAScript date-time
string: exactly four/two/two digits, month 1..12, day within the month. -/
def parseDateStr (l : List Char) : Option (Int × Nat × Nat) :=
  match splitCh '-' l with
  | [ys, ms, ds] =>
    match parseDigits 4 ys, parseDigits 2 ms, parseDigits 2 ds with
    | some y, some m, some d =>
      if 1 ≤ m && m ≤ 12 && 1 ≤ d && d ≤ daysInMonth (y : Int) m then
        some ((y : Int), m, d)
      else none
    | _, _, _ => none
  | _ => none

/-- Parse the time component `HH:MM` or `HH:MM:SS` of an ECMAScript
date-time string, in milliseconds from midnight (hour 24 is allowed only
as `24:00[:00]`, as in the ECMAScript format). -/
def parseTimeStr (l : List Char) : Option Nat :=
  let conv : Nat → Nat → Nat → Option Nat := fun h m s =>
    if (h ≤ 23 || (h = 24 && m = 0 && s = 0)) && m ≤ 59 && s ≤ 59 then
      some (((h * 60 + m) * 60 + s) * 1000)
    else none
  match splitCh ':' l with
  | [hs, ms] =>
    match parseDigits 2 hs, parseDigits 2 ms with
    | some h, some m => conv h m 0
    | _, _ => none
  | [hs, ms, ss] =>
    match parseDigits 2 hs, parseDigits 2 ms, parseDigits 2 ss with
    | some h, some m, some s => conv h m s
    | _, _, _ => none
  | _ => none

/-- `new Date(s).getTime()` for the strings this pipeline feeds to the
`Date` constructor, i.e. the ECMAScript date-time string format
(`YYYY-MM-DD`, optionally followed by `T` and a time).  A date-only string
is interpreted as UTC midnight; a date-time string without a zone suffix
is interpreted as local time in a zone whose `getTimezoneOffset()` is
`tz` minutes.  Returns `none` for an invalid date (`NaN` timestamp).
Engine-specific fallback formats outside the standard format are not
modelled: the source document's timestamps are `YYYY-MM-DD HH:MM:SS`. -/
def jsDateParse (l : List Char) (tz : Int) : Option Int :=
  match splitCh 'T' l with
  | [d] => (parseDateStr d).map (fun c => daysFromCivil c.1 c.2.1 c.2.2 * 86400000)
  | [d, t] =>
    match parseDateStr d, parseTimeStr t with
    | some c, some tm => some (daysFromCivil c.1 c.2.1 c.2.2 * 86400000 + tm + tz * 60000)
    | _, _ => none
  | _ => none

/-- One parsed attendance record.  `processCSV` (lines 121-126) builds the
object `{name, timestamp, date, isoTime}` for today's rows; the same four
fields describe every valid row of the document (the spec's `Event`:
`workerName` / `timestampRaw` / `datePart` / `epochMillis`).  `name` is
`none` when the resolved name column is absent from the row (JS
`undefined`, which the script stores without complaint). -/
structure Event where
  name : Option String
  timestamp : String
  date : String
  isoTime : Int
deriving DecidableEq

/-- The mutable state of the row loop of `processCSV` (lines 83-89):
`data`, `uniqueWorkersToday` (a JS `Set`, modelled as its insertion-order
list of distinct members), `rawLastTime`, `lastWorkerName`,
`lastWorkerTime`.  `lastName` is an `Option String` because the script can
assign an undefined row field to it. -/
structure St where
  data : List Event
  uniq : List (Option String)
  rawLastTime : Int
  lastName : Option String
  lastTime : String
deriving DecidableEq

/-- Initial loop state (lines 83-89). -/
def initSt : St :=
  { data := [], uniq := [], rawLastTime := 0
    lastName := some "None", lastTime := "No activity yet" }

/-- JS `Set.prototype.add`: insert if not present (SameValueZero). -/
def setAdd (s : List (Option String)) (x : Option String) : List (Option String) :=
  if x ∈ s then s else s ++ [x]

/-- One iteration of the aggregation part of the row loop (lines 120-135),
applied to a valid parsed row `e`: push `e` and record its worker when its
`date` equals today's reference string, then update the running
most-recent-event fields when `e.isoTime` strictly exceeds `rawLastTime`. -/
def aggStep (today : String) (st : St) (e : Event) : St :=
  let st1 :=
    if e.date = today then
      { st with data := st.data ++ [e], uniq := setAdd st.uniq e.name }
    else st
  if st1.rawLastTime < e.isoTime then
    { st1 with rawLastTime := e.isoTime, lastName := e.name, lastTime := e.timestamp }
  else st1

/-- `parseCSVLine` (lines 198-202): split on commas and trim each field. -/
def parseCSVLine (line : List Char) : List (List Char) :=
  (splitCh ',' line).map trimC

/-- The parsing part of one iteration of the row loop (lines 92-107):
skip blank lines, skip rows with fewer than 2 fields, read the name and
timestamp fields at the resolved indices, substitute the first space by
`T` and parse; skip the row when the timestamp is invalid (`NaN`).
Returns `.error ()` for the `TypeError` the script throws when
`parts[timeIdx]` is `undefined` (line 103 calls `.replace` on it), and
`.ok none` for a silently skipped row. -/
def rowEvent (nameIdx timeIdx : Nat) (tz : Int) (line : List Char) : Except Unit (Option Event) :=
  if trimC line = [] then .ok none
  else
    let parts := parseCSVLine line
    if parts.length < 2 then .ok none
    else
      match parts[timeIdx]? with
      | none => .error ()
      | some ts =>
        match jsDateParse (replFirstSpace ts) tz with
        | none => .ok none
        | some ms => .ok (some ⟨(parts[nameIdx]?).map (⟨·⟩), ⟨ts⟩, ⟨firstField ts⟩, ms⟩)

/-- The row loop of `processCSV` (lines 92-136) over the data lines:
parse each row and fold the aggregation step; a thrown `TypeError`
(missing timestamp field in a row with at least 2 fields) aborts the
remaining rows. -/
def processRows (nameIdx timeIdx : Nat) (today : String) (tz : Int) :
    List (List Char) → St → Except Unit St
  | [], st => .ok st
  | l :: ls, st =>
    match rowEvent nameIdx timeIdx tz l with
    | .error _ => .error ()
    | .ok none => processRows nameIdx timeIdx today tz ls st
    | .ok (some e) => processRows nameIdx timeIdx today tz ls (aggStep today st e)

/-- The sequence of valid parsed `Event`s of the data lines, in encounter
order (the spec's `RecordParser` output), with the same `TypeError`
behaviour as the loop. -/
def rowsToEvents (nameIdx timeIdx : Nat) (tz : Int) : List (List Char) → Except Unit (List Event)
  | [] => .ok []
  | l :: ls =>
    match rowEvent nameIdx timeIdx tz l with
    | .error _ => .error ()
    | .ok none => rowsToEvents nameIdx timeIdx tz ls
    | .ok (some e) => (rowsToEvents nameIdx timeIdx tz ls).map (fun evs => e :: evs)

/-- Line 68: `csvText.trim().split('\n')`. -/
def docLines (csvText : String) : List (List Char) :=
  splitCh '\n' (trimC csvText.data)

/-- Line 72: the header fields, trimmed and lower-cased. -/
def headersOf (csvText : String) : List (List Char) :=
  (splitCh ',' ((docLines csvText).headD [])).map (fun h => toLowerC (trimC h))

/-- Line 75: first column whose lower-cased label contains `"name"`
(`findIndex` returning `-1` is modelled as `none`). -/
def nameIdxOf (csvText : String) : Option Nat :=
  (headersOf csvText).findIdx? (fun h => hasSub "name".data h)

/-- Line 76: first column whose lower-cased label contains `"timestamp"`. -/
def timeIdxOf (csvText : String) : Option Nat :=
  (headersOf csvText).findIdx? (fun h => hasSub "timestamp".data h)

/-- The per-cycle output of `processCSV`: the arguments of
`updateDashboardStats(uniqueWorkersToday.size, lastWorkerName,
lastWorkerTime)` (line 138) together with the `data` array handed to
`updateTable` (line 139), in encounter order. -/
structure Stats where
  todayCount : Nat
  lastWorker : Option String
  lastTimestampRaw : String
  tableData : List Event
deriving DecidableEq

/-- Observable outcome of one `processCSV` call.  `noData`: the early
return at line 69 (fewer than 2 lines after trimming) — nothing is
emitted.  `schemaError`: the `console.error` + return at lines 78-81 —
nothing is emitted.  `crash`: an uncaught `TypeError` from the row loop
(caught upstream by `fetchData`'s catch, which shows the waiting state).
`ok`: the stats and table handed to the rendering helpers. -/
inductive CSVResult where
  | noData
  | schemaError
  | crash
  | ok (s : Stats)
deriving DecidableEq

/-- `processCSV` (lines 67-140) with the reference today string passed
explicitly (the script computes it at line 71; see `processCSV` below). -/
def processCSVWith (csvText : String) (today : String) (tz : Int) : CSVResult :=
  if (docLines csvText).length < 2 then .noData
  else
    match nameIdxOf csvText, timeIdxOf csvText with
    | some nameIdx, some timeIdx =>
      match processRows nameIdx timeIdx today tz (docLines csvText).tail initSt with
      | .error _ => .crash
      | .ok st => .ok ⟨st.uniq.length, st.lastName, st.lastTime, st.data⟩
    | _, _ => .schemaError

/-- `processCSV` at an instant `nowMs` (epoch milliseconds) in a zone with
`getTimezoneOffset() = tz`: line 71 derives the reference today string as
`new Date().toISOString().slice(0, 10)` — the UTC calendar date of the
current instant. -/
def processCSV (csvText : String) (nowMs tz : Int) : CSVResult :=
  processCSVWith csvText (utcDateString nowMs) tz

/-- The document's valid parsed `Event`s (under the resolved header), in
encounter order. -/
def docEvents (csvText : String) (tz : Int) : Except Unit (List Event) :=
  match nameIdxOf csvText, timeIdxOf csvText with
  | some nameIdx, some timeIdx => rowsToEvents nameIdx timeIdx tz (docLines csvText).tail
  | _, _ => .ok []

/-- The stats assembled from an event list by folding the aggregation
step from the initial state (what the row loop computes). -/
def statsOf (today : String) (evs : List Event) : Stats :=
  let st := evs.foldl (aggStep today) initSt
  ⟨st.uniq.length, st.lastName, st.lastTime, st.data⟩

deriving instance DecidableEq for Except

/-- Stable insertion of `e` into a list sorted by `isoTime` descending:
`e` goes before the first element whose `isoTime` is at most `e`'s.  -/
def insertDesc (e : Event) : List Event → List Event
  | [] => [e]
  | x :: xs => if x.isoTime ≤ e.isoTime then e :: x :: xs else x :: insertDesc e xs

/-- Line 169 of `updateTable`: `data.sort((a, b) => b.isoTime - a.isoTime)`
— the stable sort of the table rows by `isoTime` descending (ECMAScript
`Array.prototype.sort` is stable; any stable sort consistent with the
comparator yields the same list, here given as insertion sort). -/
def jsSortDesc : List Event → List Event
  | [] => []
  | x :: xs => insertDesc x (jsSortDesc xs)

/-- The list is in descending `isoTime` order (most recent first). -/
def sortedByTimeDesc (l : List Event) : Prop :=
  l.Pairwise (fun a b => b.isoTime ≤ a.isoTime)

instance (l : List Event) : Decidable (sortedByTimeDesc l) := by
  unfold sortedByTimeDesc; infer_instance

/-- The row loop equals: parse the rows to events, then fold the
aggregation step over them. -/
theorem processRows_eq (nameIdx timeIdx : Nat) (today : String) (tz : Int) :
    ∀ (ls : List (List Char)) (st : St),
      processRows nameIdx timeIdx today tz ls st
        = (rowsToEvents nameIdx timeIdx tz ls).map (fun evs => evs.foldl (aggStep today) st)
  | [], _ => rfl
  | l :: ls, st => by
    simp only [processRows, rowsToEvents]
    cases rowEvent nameIdx timeIdx tz l with
    | error e => rfl
    | ok oe =>
      cases oe with
      | none => exact processRows_eq nameIdx timeIdx today tz ls st
      | some ev =>
        show processRows nameIdx timeIdx today tz ls (aggStep today st ev)
          = Except.map (fun evs => evs.foldl (aggStep today) st)
              (Except.map (fun evs => ev :: evs) (rowsToEvents nameIdx timeIdx tz ls))
        rw [processRows_eq nameIdx timeIdx today tz ls (aggStep today st ev)]
        cases rowsToEvents nameIdx timeIdx tz ls <;> simp [Except.map]

theorem aggStep_data (today : String) (st : St) (e : Event) :
    (aggStep today st e).data = st.data ++ if e.date = today then [e] else [] := by
  simp only [aggStep]
  split <;> split <;> simp

theorem aggStep_uniq (today : String) (st : St) (e : Event) :
    (aggStep today st e).uniq = if e.date = today then setAdd st.uniq e.name else st.uniq := by
  simp only [aggStep]
  split <;> split <;> simp

theorem aggStep_raw (today : String) (st : St) (e : Event) :
    (aggStep today st e).rawLastTime
      = if st.rawLastTime < e.isoTime then e.isoTime else st.rawLastTime := by
  simp only [aggStep]
  split <;> split <;> simp_all

theorem aggStep_lastName (today : String) (st : St) (e : Event) :
    (aggStep today st e).lastName
      = if st.rawLastTime < e.isoTime then e.name else st.lastName := by
  simp only [aggStep]
  split <;> split <;> simp_all

theorem aggStep_lastTime (today : String) (st : St) (e : Event) :
    (aggStep today st e).lastTime
      = if st.rawLastTime < e.isoTime then e.timestamp else st.lastTime := by
  simp only [aggStep]
  split <;> split <;> simp_all

/-- The accumulated `data` array is the today-filtered event sequence in
encounter order. -/
theorem foldl_aggStep_data (today : String) :
    ∀ (evs : List Event) (st : St),
      (evs.foldl (aggStep today) st).data
        = st.data ++ evs.filter (fun e => decide (e.date = today))
  | [], st => by simp
  | e :: evs, st => by
    rw [List.foldl_cons, foldl_aggStep_data today evs (aggStep today st e),
      List.filter_cons, aggStep_data]
    by_cases h : e.date = today <;> simp [h]

/-- The accumulated distinct-worker set is the fold of `setAdd` over the
names of today's events. -/
theorem foldl_aggStep_uniq (today : String) :
    ∀ (evs : List Event) (st : St),
      (evs.foldl (aggStep today) st).uniq
        = ((evs.filter (fun e => decide (e.date = today))).map (fun e => e.name)).foldl
            setAdd st.uniq
  | [], _ => by simp
  | e :: evs, st => by
    rw [List.foldl_cons, foldl_aggStep_uniq today evs (aggStep today st e),
      List.filter_cons, aggStep_uniq]
    by_cases h : e.date = today <;> simp [h]

theorem mem_setAdd {s : List (Option String)} {x a : Option String} :
    a ∈ setAdd s x ↔ a ∈ s ∨ a = x := by
  unfold setAdd
  split <;> simp_all

theorem nodup_setAdd {s : List (Option String)} (h : s.Nodup) (x : Option String) :
    (setAdd s x).Nodup := by
  unfold setAdd
  split
  · exact h
  · simp_all [List.nodup_append]

theorem mem_foldl_setAdd :
    ∀ (l s : List (Option String)) (a : Option String),
      a ∈ l.foldl setAdd s ↔ a ∈ s ∨ a ∈ l
  | [], s, a => by simp
  | x :: l, s, a => by
    rw [List.foldl_cons, mem_foldl_setAdd l (setAdd s x) a, mem_setAdd]
    simp [or_assoc, or_comm, or_left_comm]

theorem nodup_foldl_setAdd :
    ∀ (l s : List (Option String)), s.Nodup → (l.foldl setAdd s).Nodup
  | [], _, h => h
  | x :: l, s, h => nodup_foldl_setAdd l (setAdd s x) (nodup_setAdd h x)

/-- The size of the JS `Set` is the number of distinct inserted values. -/
theorem length_foldl_setAdd (l : List (Option String)) :
    (l.foldl setAdd []).length = l.dedup.length := by
  have hnd : (l.foldl setAdd []).Nodup := nodup_foldl_setAdd l [] (by simp)
  have hfin : (l.foldl setAdd []).toFinset = l.toFinset := by
    ext a
    simp [List.mem_toFinset, mem_foldl_setAdd]
  calc (l.foldl setAdd []).length
      = (l.foldl setAdd []).dedup.length := by rw [List.dedup_eq_self.mpr hnd]
    _ = (l.foldl setAdd []).toFinset.card := (List.card_toFinset _).symm
    _ = l.toFinset.card := by rw [hfin]
    _ = l.dedup.length := List.card_toFinset l

/-- Characterization of the running most-recent-event fields: folding the
aggregation step either leaves them at their initial values (when no event
strictly exceeds the initial `rawLastTime`) or ends holding the first
event whose `isoTime` attains the running maximum. -/
theorem foldl_aggStep_last (today : String) (evs : List Event) (st : St) :
    ((∀ e ∈ evs, e.isoTime ≤ st.rawLastTime)
      ∧ (evs.foldl (aggStep today) st).rawLastTime = st.rawLastTime
      ∧ (evs.foldl (aggStep today) st).lastName = st.lastName
      ∧ (evs.foldl (aggStep today) st).lastTime = st.lastTime)
    ∨ (∃ l₁ e l₂, evs = l₁ ++ e :: l₂
        ∧ st.rawLastTime < e.isoTime
        ∧ (∀ x ∈ l₁, x.isoTime < e.isoTime)
        ∧ (∀ x ∈ l₂, x.isoTime ≤ e.isoTime)
        ∧ (evs.foldl (aggStep today) st).rawLastTime = e.isoTime
        ∧ (evs.foldl (aggStep today) st).lastName = e.name
        ∧ (evs.foldl (aggStep today) st).lastTime = e.timestamp) := by
  induction evs using List.reverseRecOn with
  | nil => left; simp
  | append_singleton evs a ih =>
    rw [List.foldl_append, List.foldl_cons, List.foldl_nil] at *
    rcases ih with ⟨hall, hraw, hname, htime⟩ | ⟨l₁, e, l₂, hdec, hst, hl₁, hl₂, hraw, hname, htime⟩
    · by_cases hc : (evs.foldl (aggStep today) st).rawLastTime < a.isoTime
      · right
        refine ⟨evs, a, [], by simp, ?_, ?_, by simp, ?_, ?_, ?_⟩
        · rw [hraw] at hc; exact hc
        · intro x hx
          exact lt_of_le_of_lt (hall x hx) (hraw ▸ hc)
        · rw [aggStep_raw, if_pos hc]
        · rw [aggStep_lastName, if_pos hc]
        · rw [aggStep_lastTime, if_pos hc]
      · left
        refine ⟨?_, ?_, ?_, ?_⟩
        · intro x hx
          rcases List.mem_append.mp hx with hx | hx
          · exact hall x hx
          · rcases List.mem_singleton.mp hx with rfl
            rw [hraw] at hc; exact le_of_not_lt hc
        · rw [aggStep_raw, if_neg hc, hraw]
        · rw [aggStep_lastName, if_neg hc, hname]
        · rw [aggStep_lastTime, if_neg hc, htime]
    · by_cases hc : (evs.foldl (aggStep today) st).rawLastTime < a.isoTime
      · right
        refine ⟨evs, a, [], by simp, ?_, ?_, by simp, ?_, ?_, ?_⟩
        · exact hst.trans (hraw ▸ hc)
        · intro x hx
          rw [hdec] at hx
          rw [hraw] at hc
          rcases List.mem_append.mp hx with hx | hx
          · exact lt_trans (hl₁ x hx) hc
          · rcases List.mem_cons.mp hx with rfl | hx
            · exact hc
            · exact lt_of_le_of_lt (hl₂ x hx) hc
        · rw [aggStep_raw, if_pos hc]
        · rw [aggStep_lastName, if_pos hc]
        · rw [aggStep_lastTime, if_pos hc]
      · right
        refine ⟨l₁, e, l₂ ++ [a], by rw [hdec]; simp, hst, hl₁, ?_, ?_, ?_, ?_⟩
        · intro x hx
          rcases List.mem_append.mp hx with hx | hx
          · exact hl₂ x hx
          · rcases List.mem_singleton.mp hx with rfl
            rw [hraw] at hc; exact le_of_not_lt hc
        · rw [aggStep_raw, if_neg hc, hraw]
        · rw [aggStep_lastName, if_neg hc, hname]
        · rw [aggStep_lastTime, if_neg hc, htime]

/-- A successful `processCSV` run is exactly the aggregation of the
document's parsed events. -/
theorem processCSVWith_ok {doc today : String} {tz : Int} {out : Stats}
    (h : processCSVWith doc today tz = CSVResult.ok out) :
    ∃ evs, docEvents doc tz = Except.ok evs ∧ out = statsOf today evs := by
  unfold processCSVWith at h
  by_cases hlen : (docLines doc).length < 2
  · rw [if_pos hlen] at h
    exact absurd h (by simp)
  · rw [if_neg hlen] at h
    cases hn : nameIdxOf doc with
    | none =>
      rw [hn] at h
      cases ht : timeIdxOf doc <;> rw [ht] at h <;> simp at h
    | some nameIdx =>
      rw [hn] at h
      cases ht : timeIdxOf doc with
      | none => rw [ht] at h; simp at h
      | some timeIdx =>
        rw [ht] at h
        simp only [processRows_eq] at h
        cases hr : rowsToEvents nameIdx timeIdx tz (docLines doc).tail with
        | error e => rw [hr] at h; simp [Except.map] at h
        | ok evs =>
          rw [hr] at h
          simp only [Except.map] at h
          refine ⟨evs, ?_, ?_⟩
          · unfold docEvents
            rw [hn, ht]
            exact hr
          · cases h
            rfl

theorem perm_insertDesc (e : Event) : ∀ l, (insertDesc e l).Perm (e :: l)
  | [] => List.Perm.refl _
  | x :: xs => by
    unfold insertDesc
    split
    · exact List.Perm.refl _
    · exact ((perm_insertDesc e xs).cons x).trans (List.Perm.swap e x xs)

theorem perm_jsSortDesc : ∀ l, (jsSortDesc l).Perm l
  | [] => List.Perm.refl _
  | x :: xs =>
    (perm_insertDesc x (jsSortDesc xs)).trans ((perm_jsSortDesc xs).cons x)

theorem sorted_insertDesc (e : Event) :
    ∀ l, sortedByTimeDesc l → sortedByTimeDesc (insertDesc e l)
  | [], _ => List.pairwise_cons.mpr ⟨by simp, List.Pairwise.nil⟩
  | x :: xs, h => by
    have hx := (List.pairwise_cons.mp h).1
    have hxs := (List.pairwise_cons.mp h).2
    unfold insertDesc
    split
    case isTrue hc =>
      refine List.pairwise_cons.mpr ⟨?_, h⟩
      intro y hy
      rcases List.mem_cons.mp hy with rfl | hy
      · exact hc
      · exact (hx y hy).trans hc
    case isFalse hc =>
      refine List.pairwise_cons.mpr ⟨?_, sorted_insertDesc e xs hxs⟩
      intro y hy
      rcases List.mem_cons.mp ((perm_insertDesc e xs).mem_iff.mp hy) with rfl | hy
      · exact le_of_lt (lt_of_not_le hc)
      · exact hx y hy

theorem sorted_jsSortDesc : ∀ l, sortedByTimeDesc (jsSortDesc l)
  | [] => List.Pairwise.nil
  | x :: xs => sorted_insertDesc x (jsSortDesc xs) (sorted_jsSortDesc xs)

theorem trimL_eq_self {l : List Char} (h : ∀ c ∈ l, isWS c = false) : trimL l = l := by
  cases l with
  | nil => rfl
  | cons c cs => simp [trimL, h c (by simp)]

theorem trimC_eq_self {l : List Char} (h : ∀ c ∈ l, isWS c = false) : trimC l = l := by
  unfold trimC
  rw [trimL_eq_self (fun c hc => h c (List.mem_reverse.mp hc)), List.reverse_reverse,
    trimL_eq_self h]

theorem splitCh_not_mem {sep : Char} : ∀ {l : List Char}, sep ∉ l → splitCh sep l = [l]
  | [], _ => rfl
  | c :: cs, h => by
    have hc : ¬ c = sep := fun e => h (e ▸ List.mem_cons_self c cs)
    have hcs : sep ∉ cs := fun e => h (List.mem_cons_of_mem c e)
    simp [splitCh, hc, splitCh_not_mem hcs]

theorem splitCh_append (sep : Char) :
    ∀ (a b : List Char), sep ∉ a → splitCh sep (a ++ sep :: b) = a :: splitCh sep b
  | [], b, _ => by simp [splitCh]
  | c :: a, b, h => by
    have hc : ¬ c = sep := fun e => h (e ▸ List.mem_cons_self c a)
    have ha : sep ∉ a := fun e => h (List.mem_cons_of_mem c e)
    rw [List.cons_append]
    simp [splitCh, hc, splitCh_append sep a b ha]

theorem replFirstSpace_eq_self : ∀ {l : List Char}, ' ' ∉ l → replFirstSpace l = l
  | [], _ => rfl
  | c :: cs, h => by
    have hc : ¬ c = ' ' := fun e => h (e ▸ List.mem_cons_self c cs)
    have hcs : ' ' ∉ cs := fun e => h (List.mem_cons_of_mem c e)
    simp [replFirstSpace, hc, replFirstSpace_eq_self hcs]

theorem firstField_eq_self {l : List Char} (h : ' ' ∉ l) : firstField l = l := by
  unfold firstField
  rw [splitCh_not_mem h]
  rfl

/-- Claim C10 (implicit edge case): a row whose timestamp string contains
no space is still accepted when the whole string parses as a date; the
space-to-`T` substitution is the identity on it and its `datePart` is the
entire timestamp string, so a bare date-only timestamp equal to today's
date string is counted as a today event (second conjunct: the concrete
document `Name,Timestamp` + row `Alice,2024-03-15` on today
`2024-03-15` yields `todayCount = 1` with the event in the table). -/
theorem c10_date_only_row (ts : List Char) (tz ms : Int)
    (hws : ∀ c ∈ ts, isWS c = false) (hcomma : ',' ∉ ts)
    (hparse : jsDateParse ts tz = some ms) :
    rowEvent 0 1 tz ("Alice,".data ++ ts)
      = Except.ok (some ⟨some "Alice", ⟨ts⟩, ⟨ts⟩, ms⟩)
    ∧ processCSVWith "Name,Timestamp\nAlice,2024-03-15" "2024-03-15" 0
      = CSVResult.ok ⟨1, some "Alice", "2024-03-15",
          [⟨some "Alice", "2024-03-15", "2024-03-15", 1710460800000⟩]⟩ := by
  have hsp : ' ' ∉ ts := fun hmem => by simpa [isWS] using hws ' ' hmem
  have halice : ∀ c ∈ "Alice,".data, isWS c = false := by decide
  have hline : ∀ c ∈ ("Alice,".data ++ ts), isWS c = false := by
    intro c hc
    rcases List.mem_append.mp hc with hc | hc
    · exact halice c hc
    · exact hws c hc
  have htr : trimC ("Alice,".data ++ ts) = "Alice,".data ++ ts := trimC_eq_self hline
  have hne : ¬ (trimC ("Alice,".data ++ ts) = []) := by
    rw [htr]
    simp
  have hparts : parseCSVLine ("Alice,".data ++ ts) = ["Alice".data, ts] := by
    unfold parseCSVLine
    have hdec : ("Alice,".data ++ ts) = "Alice".data ++ ',' :: ts := by
      have h2 : "Alice,".data = "Alice".data ++ [','] := by decide
      rw [h2, List.append_assoc]
      rfl
    rw [hdec, splitCh_append ',' "Alice".data ts (by decide), splitCh_not_mem hcomma]
    have h1 : trimC "Alice".data = "Alice".data := by decide
    rw [List.map_cons, List.map_cons, List.map_nil, h1, trimC_eq_self hws]
  constructor
  · rw [rowEvent, if_neg hne]
    simp only [hparts]
    show (match jsDateParse (replFirstSpace ts) tz with
          | none => (Except.ok none : Except Unit (Option Event))
          | some m => Except.ok (some ⟨some "Alice", ⟨ts⟩, ⟨firstField ts⟩, m⟩))
        = Except.ok (some ⟨some "Alice", ⟨ts⟩, ⟨ts⟩, ms⟩)
    rw [replFirstSpace_eq_self hsp, hparse, firstField_eq_self hsp]
  · decide

/-- Witness for C10 at the concrete date-only timestamp `2024-03-15`:
the row is accepted, its `datePart` is the whole string, and the document
with that row counts it as a today event. -/
theorem c10_date_only_row_witness :
    rowEvent 0 1 0 ("Alice,".data ++ "2024-03-15".data)
      = Except.ok (some ⟨some "Alice", ⟨"2024-03-15".data⟩, ⟨"2024-03-15".data⟩, 1710460800000⟩)
    ∧ processCSVWith "Name,Timestamp\nAlice,2024-03-15" "2024-03-15" 0
      = CSVResult.ok ⟨1, some "Alice", "2024-03-15",
          [⟨some "Alice", "2024-03-15", "2024-03-15", 1710460800000⟩]⟩ :=
  c10_date_only_row "2024-03-15".data 0 1710460800000 (by decide) (by decide) (by decide)

/-- Claim C1 (confirmed): for every valid document, `todayCount` equals
the number of distinct `workerName` values among the parsed Events whose
`datePart` (the substring of the raw timestamp before its first space) is
string-equal to the reference today string; repeated events by the same
worker on the same day are counted once. -/
theorem c1_todayCount_distinct (doc today : String) (tz : Int) (out : Stats)
    (evs : List Event)
    (h1 : processCSVWith doc today tz = CSVResult.ok out)
    (h2 : docEvents doc tz = Except.ok evs) :
    out.todayCount
      = ((evs.filter (fun e => decide (e.date = today))).map (fun e => e.name)).dedup.length := by
  rcases processCSVWith_ok h1 with ⟨evs', hevs', hout⟩
  rw [h2] at hevs'
  injection hevs' with h3
  subst h3
  rw [hout]
  simp only [statsOf]
  rw [foldl_aggStep_uniq]
  exact length_foldl_setAdd _

/-- Witness for C1 on the three-row scenario document (two distinct
workers today, one of them twice counting yesterday). -/
theorem c1_todayCount_distinct_witness :
    (Stats.mk 2 (some "Bob") "2024-03-15 08:05:00"
        [⟨some "Alice", "2024-03-15 08:00:00", "2024-03-15", 1710489600000⟩,
         ⟨some "Bob", "2024-03-15 08:05:00", "2024-03-15", 1710489900000⟩]).todayCount
      = ((([⟨some "Alice", "2024-03-15 08:00:00", "2024-03-15", 1710489600000⟩,
            ⟨some "Bob", "2024-03-15 08:05:00", "2024-03-15", 1710489900000⟩,
            ⟨some "Alice", "2024-03-14 09:00:00", "2024-03-14", 1710406800000⟩] : List Event).filter
              (fun e => decide (e.date = "2024-03-15"))).map (fun e => e.name)).dedup.length :=
  c1_todayCount_distinct
    "Name,Timestamp\nAlice,2024-03-15 08:00:00\nBob,2024-03-15 08:05:00\nAlice,2024-03-14 09:00:00"
    "2024-03-15" 0 _ _ (by decide) (by decide)

/-- Counterexample for C2 as stated: the document below has exactly one
parsed Event (epoch 0, i.e. `1970-01-01`), yet the output still carries
the sentinels, because line 131 compares with strict `>` against a
running maximum initialized to `0` — so `lastWorker`/`lastTimestampRaw`
are not the fields of the maximal Event and the sentinels do not
characterize the absence of parsed Events. -/
theorem c2_counterexample :
    docEvents "Name,Timestamp\nAlice,1970-01-01" 0
      = Except.ok [⟨some "Alice", "1970-01-01", "1970-01-01", 0⟩]
    ∧ processCSVWith "Name,Timestamp\nAlice,1970-01-01" "2024-03-15" 0
      = CSVResult.ok ⟨0, some "None", "No activity yet", []⟩ := by
  constructor
  · decide
  · decide

/-- Claim C2 (amended): `lastWorker`/`lastTimestampRaw` are the fields of
the first Event attaining the maximum `epochMillis` over all parsed
Events, provided some parsed Event has positive `epochMillis` (ties
broken by first occurrence, strict `>` against a running maximum
initialized to 0); they equal the sentinels "None" / "No activity yet"
exactly when no parsed Event has positive `epochMillis` (in particular
when no parsed Event exists). -/
theorem c2_last_event (doc today : String) (tz : Int) (out : Stats) (evs : List Event)
    (h1 : processCSVWith doc today tz = CSVResult.ok out)
    (h2 : docEvents doc tz = Except.ok evs) :
    ((∀ e ∈ evs, e.isoTime ≤ 0) →
      out.lastWorker = some "None" ∧ out.lastTimestampRaw = "No activity yet")
    ∧ ((∃ e ∈ evs, 0 < e.isoTime) →
      ∃ l₁ e l₂, evs = l₁ ++ e :: l₂
        ∧ 0 < e.isoTime
        ∧ (∀ x ∈ l₁, x.isoTime < e.isoTime)
        ∧ (∀ x ∈ evs, x.isoTime ≤ e.isoTime)
        ∧ out.lastWorker = e.name ∧ out.lastTimestampRaw = e.timestamp) := by
  rcases processCSVWith_ok h1 with ⟨evs', hevs', hout⟩
  rw [h2] at hevs'
  injection hevs' with h3
  subst h3
  have hchar := foldl_aggStep_last today evs initSt
  constructor
  · intro hall
    rcases hchar with ⟨_, _, hname, htime⟩ | ⟨l₁, e, l₂, hdec, hst, _, _, _, _, _⟩
    · rw [hout]
      refine ⟨?_, ?_⟩
      · show (statsOf today evs).lastWorker = some "None"
        simp only [statsOf]
        rw [hname]
        rfl
      · show (statsOf today evs).lastTimestampRaw = "No activity yet"
        simp only [statsOf]
        rw [htime]
        rfl
    · exfalso
      have he : e ∈ evs := by rw [hdec]; simp
      have h0 : (0 : Int) < e.isoTime := hst
      have := hall e he
      omega
  · intro hex
    rcases hex with ⟨e0, he0, hpos⟩
    rcases hchar with ⟨hall, _, _, _⟩ | ⟨l₁, e, l₂, hdec, hst, hl₁, hl₂, _, hname, htime⟩
    · exfalso
      have hle := hall e0 he0
      have hinit : initSt.rawLastTime = (0 : Int) := rfl
      rw [hinit] at hle
      omega
    · refine ⟨l₁, e, l₂, hdec, hst, hl₁, ?_, ?_, ?_⟩
      · intro x hx
        rw [hdec] at hx
        rcases List.mem_append.mp hx with hx | hx
        · exact le_of_lt (hl₁ x hx)
        · rcases List.mem_cons.mp hx with rfl | hx
          · exact le_refl _
          · exact hl₂ x hx
      · rw [hout]
        show (statsOf today evs).lastWorker = e.name
        simp only [statsOf]
        rw [hname]
      · rw [hout]
        show (statsOf today evs).lastTimestampRaw = e.timestamp
        simp only [statsOf]
        rw [htime]

/-- Witness for the amended C2 on the three-row scenario document: Bob's
08:05 event is the strict maximum. -/
theorem c2_last_event_witness :
    ((∀ e ∈ ([⟨some "Alice", "2024-03-15 08:00:00", "2024-03-15", 1710489600000⟩,
              ⟨some "Bob", "2024-03-15 08:05:00", "2024-03-15", 1710489900000⟩,
              ⟨some "Alice", "2024-03-14 09:00:00", "2024-03-14", 1710406800000⟩] : List Event),
        e.isoTime ≤ 0) →
      (Stats.mk 2 (some "Bob") "2024-03-15 08:05:00"
          [⟨some "Alice", "2024-03-15 08:00:00", "2024-03-15", 1710489600000⟩,
           ⟨some "Bob", "2024-03-15 08:05:00", "2024-03-15", 1710489900000⟩]).lastWorker
          = some "None"
        ∧ (Stats.mk 2 (some "Bob") "2024-03-15 08:05:00"
          [⟨some "Alice", "2024-03-15 08:00:00", "2024-03-15", 1710489600000⟩,
           ⟨some "Bob", "2024-03-15 08:05:00", "2024-03-15", 1710489900000⟩]).lastTimestampRaw
          = "No activity yet")
    ∧ ((∃ e ∈ ([⟨some "Alice", "2024-03-15 08:00:00", "2024-03-15", 1710489600000⟩,
                ⟨some "Bob", "2024-03-15 08:05:00", "2024-03-15", 1710489900000⟩,
                ⟨some "Alice", "2024-03-14 09:00:00", "2024-03-14", 1710406800000⟩] : List Event),
        0 < e.isoTime) →
      ∃ l₁ e l₂,
        ([⟨some "Alice", "2024-03-15 08:00:00", "2024-03-15", 1710489600000⟩,
          ⟨some "Bob", "2024-03-15 08:05:00", "2024-03-15", 1710489900000⟩,
          ⟨some "Alice", "2024-03-14 09:00:00", "2024-03-14", 1710406800000⟩] : List Event)
            = l₁ ++ e :: l₂
        ∧ 0 < e.isoTime
        ∧ (∀ x ∈ l₁, x.isoTime < e.isoTime)
        ∧ (∀ x ∈ ([⟨some "Alice", "2024-03-15 08:00:00", "2024-03-15", 1710489600000⟩,
                   ⟨some "Bob", "2024-03-15 08:05:00", "2024-03-15", 1710489900000⟩,
                   ⟨some "Alice", "2024-03-14 09:00:00", "2024-03-14", 1710406800000⟩] : List Event),
            x.isoTime ≤ e.isoTime)
        ∧ (Stats.mk 2 (some "Bob") "2024-03-15 08:05:00"
            [⟨some "Alice", "2024-03-15 08:00:00", "2024-03-15", 1710489600000⟩,
             ⟨some "Bob", "2024-03-15 08:05:00", "2024-03-15", 1710489900000⟩]).lastWorker = e.name
        ∧ (Stats.mk 2 (some "Bob") "2024-03-15 08:05:00"
            [⟨some "Alice", "2024-03-15 08:00:00", "2024-03-15", 1710489600000⟩,
             ⟨some "Bob", "2024-03-15 08:05:00", "2024-03-15", 1710489900000⟩]).lastTimestampRaw
            = e.timestamp) :=
  c2_last_event
    "Name,Timestamp\nAlice,2024-03-15 08:00:00\nBob,2024-03-15 08:05:00\nAlice,2024-03-14 09:00:00"
    "2024-03-15" 0 _ _ (by decide) (by decide)

/-- Counterexample for C5 as stated: at the instant
`2024-03-15T23:30:00Z` in a zone two hours east of UTC
(`getTimezoneOffset() = -120`), the local wall-clock date is
`2024-03-16`, but line 71 derives the reference today string with
`toISOString()` — the UTC date `2024-03-15`; a worker stamped at local
time `2024-03-16 01:25:00` (a today event by the local calendar) is not
counted: `todayCount = 0` and the table is empty.  The reference string
is therefore the UTC date, not the local wall-clock date. -/
theorem c5_counterexample :
    utcDateString 1710545400000 = "2024-03-15"
    ∧ localDateString 1710545400000 (-120) = "2024-03-16"
    ∧ processCSV "Name,Timestamp\nAlice,2024-03-16 01:25:00" 1710545400000 (-120)
      = CSVResult.ok ⟨0, some "Alice", "2024-03-16 01:25:00", []⟩ := by
  refine ⟨by decide, by decide, by decide⟩

/-- Claim C5 (amended): the reference today string is the current UTC
calendar date formatted `YYYY-MM-DD` (ISO string of the current instant,
not the local wall-clock date), and an Event is placed in the today table
if and only if its `datePart` is exactly string-equal to that reference
string: the table rows are the events whose `datePart` equals
`utcDateString nowMs`, in encounter order. -/
theorem c5_today_is_utc_date (doc : String) (nowMs tz : Int) (out : Stats) (evs : List Event)
    (h1 : processCSV doc nowMs tz = CSVResult.ok out)
    (h2 : docEvents doc tz = Except.ok evs) :
    out.tableData = evs.filter (fun e => decide (e.date = utcDateString nowMs)) := by
  have h1' : processCSVWith doc (utcDateString nowMs) tz = CSVResult.ok out := h1
  rcases processCSVWith_ok h1' with ⟨evs', hevs', hout⟩
  rw [h2] at hevs'
  injection hevs' with h3
  subst h3
  rw [hout]
  show (statsOf (utcDateString nowMs) evs).tableData = _
  simp only [statsOf]
  rw [foldl_aggStep_data]
  simp [initSt]

/-- Witness for the amended C5: at `nowMs = 1710545400000` (UTC date
`2024-03-15`), the 08:00 event is in the table and is exactly the
today-filtered event list. -/
theorem c5_today_is_utc_date_witness :
    (Stats.mk 1 (some "Alice") "2024-03-15 08:00:00"
        [⟨some "Alice", "2024-03-15 08:00:00", "2024-03-15", 1710489600000⟩]).tableData
      = (([⟨some "Alice", "2024-03-15 08:00:00", "2024-03-15", 1710489600000⟩] : List Event).filter
          (fun e => decide (e.date = utcDateString 1710545400000))) :=
  c5_today_is_utc_date "Name,Timestamp\nAlice,2024-03-15 08:00:00" 1710545400000 0 _ _
    (by decide) (by decide)

/-- Claim C6 (code bug): the script checks `parts.length < 2` (line 97)
instead of comparing against the resolved column indices.  With header
`id,team,fullname,event_timestamp` (name column 2, timestamp column 3), a
two-field row passes the length check and `parts[3]` is `undefined`;
line 103 then throws a `TypeError`, aborting the whole batch — the valid
row after it is never processed (first conjunct).  Without the short row
the same document processes normally (second conjunct). -/
theorem c6_short_row_crash :
    processCSVWith "id,team,fullname,event_timestamp\nx,y\n1,a,Alice,2024-03-15 08:00:00"
        "2024-03-15" 0 = CSVResult.crash
    ∧ processCSVWith "id,team,fullname,event_timestamp\n1,a,Alice,2024-03-15 08:00:00"
        "2024-03-15" 0
      = CSVResult.ok ⟨1, some "Alice", "2024-03-15 08:00:00",
          [⟨some "Alice", "2024-03-15 08:00:00", "2024-03-15", 1710489600000⟩]⟩ := by
  refine ⟨by decide, by decide⟩

/-- Counterexample for C7 as stated: the single-line document `X,Y` has a
header in which neither logical column resolves, yet `processCSV` returns
at the line-count check (line 69) before header resolution — no
SchemaError is signaled (no `console.error` is reached). -/
theorem c7_counterexample :
    nameIdxOf "X,Y" = none
    ∧ processCSVWith "X,Y" "2024-03-15" 0 = CSVResult.noData
    ∧ CSVResult.noData ≠ CSVResult.schemaError := by
  refine ⟨by decide, by decide, by decide⟩

/-- Claim C7 (amended): for every document with at least one data line
(at least 2 lines after trimming), if either the name or the timestamp
logical column cannot be resolved in the lower-cased header row by
substring match, the parse signals a SchemaError and aborts the whole
document — zero Events are produced and no aggregation output is
computed.  (A document consisting solely of a non-resolving header line
instead returns early with no output and no SchemaError.) -/
theorem c7_schema_error (doc today : String) (tz : Int)
    (hres : nameIdxOf doc = none ∨ timeIdxOf doc = none)
    (hlen : 2 ≤ (docLines doc).length) :
    processCSVWith doc today tz = CSVResult.schemaError := by
  unfold processCSVWith
  rw [if_neg (by omega)]
  rcases hres with h | h
  · rw [h]
  · rw [h]
    cases nameIdxOf doc <;> rfl

/-- Witness for the amended C7 on `X,Y` with one data row. -/
theorem c7_schema_error_witness :
    processCSVWith "X,Y\na,b" "2024-03-15" 0 = CSVResult.schemaError :=
  c7_schema_error "X,Y\na,b" "2024-03-15" 0 (Or.inl (by decide)) (by decide)

/-- Counterexample for C8 as stated: a header-only document takes the
early return at line 69 — `processCSV` emits nothing at all (the prior
display is left untouched), rather than producing the sentinel output
`todayCount = 0`, `lastWorker = "None"`,
`lastTimestampRaw = "No activity yet"`. -/
theorem c8_counterexample :
    processCSVWith "Name,Timestamp" "2024-03-15" 0 = CSVResult.noData
    ∧ CSVResult.noData ≠ CSVResult.ok ⟨0, some "None", "No activity yet", []⟩ := by
  refine ⟨by decide, by decide⟩

/-- Claim C8 (amended): a header-only document causes an early return
with no output at all; it is documents that pass the length and header
checks while yielding zero valid Events that produce the sentinel output
`todayCount = 0`, `lastWorker = "None"`,
`lastTimestampRaw = "No activity yet"` with an empty table.  (Only this
forward direction holds: the sentinels can also appear with a nonempty
event list whose events all have nonpositive `epochMillis`, since the
strict `>` against the 0-initialized running maximum never fires.) -/
theorem c8_empty_body (today : String) (tz : Int) (doc : String) (out : Stats) :
    processCSVWith "Name,Timestamp" today tz = CSVResult.noData
    ∧ (processCSVWith doc today tz = CSVResult.ok out →
        docEvents doc tz = Except.ok [] →
        out = ⟨0, some "None", "No activity yet", []⟩) := by
  constructor
  · unfold processCSVWith
    rw [if_pos (by decide)]
  · intro h1 h2
    rcases processCSVWith_ok h1 with ⟨evs', hevs', hout⟩
    rw [h2] at hevs'
    injection hevs' with h3
    subst h3
    rw [hout]
    rfl

/-- Witness for the amended C8: a header plus one unparseable row emits
the sentinel output. -/
theorem c8_empty_body_witness :
    processCSVWith "Name,Timestamp" "2024-03-15" 0 = CSVResult.noData
    ∧ (Stats.mk 0 (some "None") "No activity yet" []
        = (⟨0, some "None", "No activity yet", []⟩ : Stats)) :=
  ⟨(c8_empty_body "2024-03-15" 0 "Name,Timestamp\nfoo,bar"
      ⟨0, some "None", "No activity yet", []⟩).1,
    (c8_empty_body "2024-03-15" 0 "Name,Timestamp\nfoo,bar"
      ⟨0, some "None", "No activity yet", []⟩).2 (by decide) (by decide)⟩

/-- Counterexample for C9 as stated: on a document whose two today events
appear oldest-first, the `data` sequence handed to rendering
(`updateTable(data)`, line 139) is in encounter order — ascending, not
descending, `epochMillis` — so sortedness is not a post-condition of the
pipeline's output at the handoff boundary. -/
theorem c9_counterexample :
    processCSVWith "Name,Timestamp\nAlice,2024-03-15 08:00:00\nBob,2024-03-15 09:00:00"
        "2024-03-15" 0
      = CSVResult.ok ⟨2, some "Bob", "2024-03-15 09:00:00",
          [⟨some "Alice", "2024-03-15 08:00:00", "2024-03-15", 1710489600000⟩,
           ⟨some "Bob", "2024-03-15 09:00:00", "2024-03-15", 1710493200000⟩]⟩
    ∧ ¬ sortedByTimeDesc
        [⟨some "Alice", "2024-03-15 08:00:00", "2024-03-15", 1710489600000⟩,
         ⟨some "Bob", "2024-03-15 09:00:00", "2024-03-15", 1710493200000⟩] := by
  refine ⟨by decide, by decide⟩

/-- Claim C9 (amended): the pipeline hands `todayEvents` to rendering in
encounter order; it is `updateTable` itself (line 169) that sorts the
rows by `epochMillis` descending before painting them, so the rendered
sequence is always sorted descending (and is a permutation of the handed
data). -/
theorem c9_render_sorted (l : List Event) :
    sortedByTimeDesc (jsSortDesc l) ∧ (jsSortDesc l).Perm l :=
  ⟨sorted_jsSortDesc l, perm_jsSortDesc l⟩
